import Mathlib

/-!
Verification of the spectral peak detection and plot coordinate mapping of
the ads1256-DAQ vibration dashboard.

The repository duplicates one algorithmic core across its chart components
(src/unnamed/part_000 `ChannelChart`, src/unnamed/part_001
`VibrationDashboard`, src/frontend/src/components/LineChart.js
`VibrationChart`):

  * `findPeaks(magnitudeData, minHeight = 0.1, minDistance = 5)` — local
    maxima with a `>=`-disqualifies window, sorted by magnitude descending,
    truncated to 5 (identical text in all three copies);
  * `calculateStats(data)` — min/max/avg/rms plus the peaks (identical in
    all three copies);
  * `generatePath(width, height, padding)` (part_000 lines 57-76) — the
    frequency-clipped linear mapping of bins to SVG coordinates, and the
    peak-marker mapping (part_000 lines 150-157).

JavaScript numbers are modelled as rationals (ℚ): every operation involved
is field arithmetic and order comparison, exact over ℚ.  The one square
root (`rms`) is kept as the radicand `rmsSq`; theorems about `rms` apply
`Real.sqrt` to it.  `generatePath` returns an SVG path string in the
source; the numeric core modelled here is the ordered list of (x, y)
points that the string serialises.
-/

set_option allowUnsafeReducibility true

attribute [semireducible] Rat.ofScientific Rat.mul Rat.inv Rat.add Rat.sub Rat.div

namespace Vibration

/-- Conversion from bin index to frequency, `binToFrequency` of
part_000 lines 7-9: `(binIndex * samplingFreq) / fftSize`. -/
def binToFrequency (samplingFreq fftSize : ℚ) (binIndex : ℕ) : ℚ :=
  (binIndex * samplingFreq) / fftSize

/-- A detected peak, the object literal pushed in `findPeaks`
(part_000 lines 30-34): `{binIndex, frequency, magnitude}`. -/
structure Peak where
  binIndex : ℕ
  frequency : ℚ
  magnitude : ℚ
deriving DecidableEq

/-- The inner loop of `findPeaks` (part_000 lines 21-27): `i` is kept
while every `j` in `[i - minDistance, i + minDistance]` other than `i`
has `magnitudeData[j] < magnitudeData[i]`; a `>=` neighbour disqualifies.
Call sites guarantee `minDistance ≤ i`, so the ℕ window enumeration
`i - minDistance + k`, `k < 2*minDistance + 1`, is exact. -/
def isLocalMax (data : List ℚ) (minDistance i : ℕ) : Bool :=
  ((List.range (2 * minDistance + 1)).map (fun k => i - minDistance + k)).all
    (fun j => j == i || decide (data.getD j 0 < data.getD i 0))

/-- The candidate collection of `findPeaks` (part_000 lines 14-36), before
sorting and truncation: indices `i` with `minDistance ≤ i` and
`i + minDistance < length` (the loop bounds), magnitude at least
`minHeight`, and a strict local maximum in the `minDistance` window. -/
def rawPeaks (data : List ℚ) (samplingFreq fftSize minHeight : ℚ)
    (minDistance : ℕ) : List Peak :=
  ((List.range data.length).filter
      (fun i => decide (minDistance ≤ i) && decide (i + minDistance < data.length))).filterMap
    (fun i =>
      if data.getD i 0 < minHeight then none
      else if isLocalMax data minDistance i then
        some ⟨i, binToFrequency samplingFreq fftSize i, data.getD i 0⟩
      else none)

/-- The comparator of `peaks.sort((a, b) => b.magnitude - a.magnitude)`
(part_000 line 38): `a` precedes `b` when `b.magnitude ≤ a.magnitude`. -/
def peakGE (a b : Peak) : Prop := b.magnitude ≤ a.magnitude

instance : DecidableRel peakGE :=
  fun a b => inferInstanceAs (Decidable (b.magnitude ≤ a.magnitude))

instance : IsTotal Peak peakGE :=
  ⟨fun a b => le_total b.magnitude a.magnitude⟩

instance : IsTrans Peak peakGE :=
  ⟨fun _ _ _ h1 h2 => le_trans h2 h1⟩

/-- `findPeaks` (part_000 lines 11-39): empty input short-circuits to `[]`;
otherwise the qualifying peaks are sorted by magnitude descending (a stable
sort, as JavaScript engines implement `Array.prototype.sort`) and truncated
to the first 5. -/
def findPeaks (data : List ℚ) (samplingFreq fftSize minHeight : ℚ)
    (minDistance : ℕ) : List Peak :=
  if data.isEmpty then []
  else (List.insertionSort peakGE
    (rawPeaks data samplingFreq fftSize minHeight minDistance)).take 5

/-- The record returned by `calculateStats` (part_000 lines 41-53).
`rmsSq` holds the radicand of the source's `rms = Math.sqrt(sumSq / n)`:
the mean of the squared values, exact over ℚ. -/
structure SeriesStats where
  min : ℚ
  max : ℚ
  avg : ℚ
  rmsSq : ℚ
  peaks : List Peak
deriving DecidableEq

/-- `calculateStats` (part_000 lines 41-53): the zero record for an empty
series, otherwise extrema, mean, mean of squares and `findPeaks` with its
default arguments `minHeight = 0.1`, `minDistance = 5`. -/
def calculateStats (samplingFreq fftSize : ℚ) (data : List ℚ) : SeriesStats :=
  match data with
  | [] => ⟨0, 0, 0, 0, []⟩
  | x :: xs =>
      ⟨xs.foldl min x,
       xs.foldl max x,
       (x :: xs).sum / (x :: xs).length,
       ((x :: xs).map (fun v => v * v)).sum / (x :: xs).length,
       findPeaks (x :: xs) samplingFreq fftSize (1 / 10) 5⟩

/-- The `{top, right, bottom, left}` padding object of `generatePath`. -/
structure Padding where
  top : ℚ
  right : ℚ
  bottom : ℚ
  left : ℚ
deriving DecidableEq

/-- The target rectangle of the coordinate mapping: `generatePath` takes
`(width, height, padding)` (part_000 line 57), bundled here. -/
structure PlotRect where
  width : ℚ
  height : ℚ
  padding : Padding
deriving DecidableEq

/-- `plotWidth = width - padding.left - padding.right` (part_000 line 60). -/
def plotW (r : PlotRect) : ℚ := r.width - r.padding.left - r.padding.right

/-- `plotHeight = height - padding.top - padding.bottom` (part_000 line 61). -/
def plotH (r : PlotRect) : ℚ := r.height - r.padding.top - r.padding.bottom

/-- The vertical ceiling `yMax = data.length > 0 ? Math.max(...data) : 1`
(part_000 line 63). -/
def seriesYMax (data : List ℚ) : ℚ :=
  match data with
  | [] => 1
  | x :: xs => xs.foldl max x

/-- The point `generatePath` computes for bin `i` (part_000 lines 66-72):
`x = padding.left + (frequency / maxFreq) * plotWidth`,
`y = padding.top + plotHeight - ((magnitude - yMin) / max(yRange, 0.001)) * plotHeight`
with `yMin = 0` and `yRange = yMax - yMin`. -/
def pathPoint (data : List ℚ) (samplingFreq fftSize maxFreq : ℚ)
    (r : PlotRect) (i : ℕ) : ℚ × ℚ :=
  (r.padding.left + (binToFrequency samplingFreq fftSize i / maxFreq) * plotW r,
   r.padding.top + plotH r -
     ((data.getD i 0 - 0) / max (seriesYMax data - 0) (1 / 1000)) * plotH r)

/-- The numeric core of `generatePath` (part_000 lines 57-76): empty data
yields the empty path; otherwise each bin is mapped to its point, except
that a bin whose `frequency > maxFreq` yields `null` and is filtered out
(dropped, not clamped). -/
def generatePathPoints (data : List ℚ) (samplingFreq fftSize maxFreq : ℚ)
    (r : PlotRect) : List (ℚ × ℚ) :=
  if data.isEmpty then []
  else
    (List.range data.length).filterMap
      (fun i =>
        if maxFreq < binToFrequency samplingFreq fftSize i then none
        else some (pathPoint data samplingFreq fftSize maxFreq r i))

/-- The marker coordinates computed for one peak (part_000 lines 151-157):
the same `yMin = 0`, `yRange = Math.max(...data) - yMin`, `0.001` floor,
and the horizontal formula of `generatePath`.  The source instantiates the
rectangle constants `60/1100/20/230` of
`rect = ⟨1200, 300, {top 20, right 40, bottom 50, left 60}⟩`; the rectangle
is a parameter here so the marker and path scales can be compared at any
shared rectangle. -/
def markerPoint (data : List ℚ) (maxFreq : ℚ) (r : PlotRect) (pk : Peak) : ℚ × ℚ :=
  (r.padding.left + (pk.frequency / maxFreq) * plotW r,
   r.padding.top + plotH r -
     ((pk.magnitude - 0) / max (seriesYMax data - 0) (1 / 1000)) * plotH r)

/-- The marker mapping (part_000 line 150):
`stats.peaks.filter(peak => peak.frequency <= maxFreq).slice(0, 3)` mapped
through the marker coordinate formulas. -/
def mapPeaksToMarkers (data : List ℚ) (peaks : List Peak) (maxFreq : ℚ)
    (r : PlotRect) : List (ℚ × ℚ) :=
  ((peaks.filter (fun pk => decide (pk.frequency ≤ maxFreq))).take 3).map
    (markerPoint data maxFreq r)

/-- The rectangle the source's marker block hardcodes (part_000 lines
151-157): width 1200, height 300, padding top 20, right 40, bottom 50,
left 60. -/
def rectA : PlotRect := ⟨1200, 300, ⟨20, 40, 50, 60⟩⟩

/-- A rectangle whose plot width is negative:
`padding.left + padding.right > width`. -/
def rectBad : PlotRect := ⟨100, 100, ⟨0, 60, 0, 60⟩⟩

/-! ### Helper lemmas about list folds and indexing -/

theorem getD_mem : ∀ (data : List ℚ) (i : ℕ), i < data.length → data.getD i 0 ∈ data
  | x :: _, 0, _ => List.mem_cons_self x _
  | _ :: xs, i + 1, h =>
      List.mem_cons_of_mem _ (getD_mem xs i (Nat.lt_of_succ_lt_succ h))

theorem le_foldl_max_self (l : List ℚ) : ∀ a : ℚ, a ≤ l.foldl max a := by
  induction l with
  | nil => intro a; exact le_refl a
  | cons x xs ih =>
      intro a
      exact le_trans (le_max_left a x) (ih (max a x))

theorem mem_le_foldl_max (l : List ℚ) : ∀ (a m : ℚ), m ∈ l → m ≤ l.foldl max a := by
  induction l with
  | nil => intro a m hm; cases hm
  | cons x xs ih =>
      intro a m hm
      rcases List.mem_cons.mp hm with h | h
      · subst h
        exact le_trans (le_max_right a m) (le_foldl_max_self xs (max a m))
      · exact ih (max a x) m h

theorem foldl_max_const (c : ℚ) (l : List ℚ) (h : ∀ m ∈ l, m = c) :
    l.foldl max c = c := by
  induction l with
  | nil => rfl
  | cons x xs ih =>
      have hx : x = c := h x (List.mem_cons_self x xs)
      rw [List.foldl_cons, hx, max_self]
      exact ih (fun m hm => h m (List.mem_cons_of_mem x hm))

theorem le_seriesYMax (data : List ℚ) (m : ℚ) (hm : m ∈ data) :
    m ≤ seriesYMax data := by
  cases data with
  | nil => cases hm
  | cons x xs =>
      show m ≤ xs.foldl max x
      rcases List.mem_cons.mp hm with h | h
      · subst h; exact le_foldl_max_self xs m
      · exact mem_le_foldl_max xs x m h

theorem seriesYMax_const (data : List ℚ) (c : ℚ) (hne : data ≠ [])
    (h : ∀ m ∈ data, m = c) : seriesYMax data = c := by
  cases data with
  | nil => exact absurd rfl hne
  | cons x xs =>
      have hx : x = c := h x (List.mem_cons_self x xs)
      show xs.foldl max x = c
      rw [hx]
      exact foldl_max_const c xs (fun m hm => h m (List.mem_cons_of_mem x hm))

/-! ### Characterisations of the mapping operations -/

theorem filterMap_clip (f : ℕ → ℚ × ℚ) (g : ℕ → ℚ) (mf : ℚ) :
    ∀ l : List ℕ,
      (l.filterMap fun i => if mf < g i then none else some (f i))
        = (l.filter fun i => decide (g i ≤ mf)).map f := by
  intro l
  induction l with
  | nil => rfl
  | cons x xs ih =>
      by_cases hx : mf < g x
      · rw [List.filterMap_cons, List.filter_cons]
        simp only [if_pos hx, decide_eq_true_eq]
        rw [if_neg (by simpa using not_le.mpr hx)]
        exact ih
      · rw [List.filterMap_cons, List.filter_cons]
        simp only [if_neg hx, decide_eq_true_eq]
        rw [if_pos (by simpa using not_lt.mp hx), List.map_cons, ih]

theorem generatePathPoints_eq (data : List ℚ) (samplingFreq fftSize maxFreq : ℚ)
    (r : PlotRect) :
    generatePathPoints data samplingFreq fftSize maxFreq r
      = ((List.range data.length).filter
            fun i => decide (binToFrequency samplingFreq fftSize i ≤ maxFreq)).map
          (pathPoint data samplingFreq fftSize maxFreq r) := by
  rw [generatePathPoints]
  split
  · next hemp =>
      have : data = [] := List.isEmpty_iff.mp hemp
      subst this
      rfl
  · exact filterMap_clip _ _ _ _

theorem pathPoint_mem_generatePathPoints (data : List ℚ)
    (samplingFreq fftSize maxFreq : ℚ) (r : PlotRect) (i : ℕ)
    (hi : i < data.length)
    (hle : binToFrequency samplingFreq fftSize i ≤ maxFreq) :
    pathPoint data samplingFreq fftSize maxFreq r i
      ∈ generatePathPoints data samplingFreq fftSize maxFreq r := by
  rw [generatePathPoints_eq]
  exact List.mem_map_of_mem _
    (List.mem_filter.mpr ⟨List.mem_range.mpr hi, decide_eq_true hle⟩)

/-! ### Characterisations of peak detection -/

theorem isLocalMax_iff (data : List ℚ) (minD i : ℕ) (h : minD ≤ i) :
    isLocalMax data minD i = true ↔
      ∀ j ∈ Finset.Icc (i - minD) (i + minD), j ≠ i →
        data.getD j 0 < data.getD i 0 := by
  rw [isLocalMax, List.all_eq_true]
  constructor
  · intro H j hj hne
    have hj2 := Finset.mem_Icc.mp hj
    have hk : j - (i - minD) < 2 * minD + 1 := by omega
    have he : i - minD + (j - (i - minD)) = j := by omega
    have := H j (List.mem_map.mpr ⟨j - (i - minD), List.mem_range.mpr hk, he⟩)
    rcases Bool.or_eq_true_iff.mp this with hb | hb
    · exact absurd (eq_of_beq hb) hne
    · exact of_decide_eq_true hb
  · intro H x hx
    obtain ⟨k, hk, rfl⟩ := List.mem_map.mp hx
    have hk2 := List.mem_range.mp hk
    by_cases he : i - minD + k = i
    · exact Bool.or_eq_true_iff.mpr (Or.inl (beq_iff_eq.mpr he))
    · have hmem : i - minD + k ∈ Finset.Icc (i - minD) (i + minD) :=
        Finset.mem_Icc.mpr ⟨Nat.le_add_right _ _, by omega⟩
      exact Bool.or_eq_true_iff.mpr (Or.inr (decide_eq_true (H _ hmem he)))

theorem mem_rawPeaks_iff (data : List ℚ) (samplingFreq fftSize minH : ℚ)
    (minD : ℕ) (pk : Peak) :
    pk ∈ rawPeaks data samplingFreq fftSize minH minD ↔
      ∃ i : ℕ, minD ≤ i ∧ i + minD < data.length
        ∧ ¬ data.getD i 0 < minH
        ∧ isLocalMax data minD i = true
        ∧ pk = ⟨i, binToFrequency samplingFreq fftSize i, data.getD i 0⟩ := by
  rw [rawPeaks]
  constructor
  · intro h
    obtain ⟨i, hi, hf⟩ := List.mem_filterMap.mp h
    obtain ⟨_, hp⟩ := List.mem_filter.mp hi
    obtain ⟨h1, h2⟩ := Bool.and_eq_true_iff.mp hp
    split at hf
    · cases hf
    · split at hf
      · exact ⟨i, of_decide_eq_true h1, of_decide_eq_true h2, by assumption,
          by assumption, (Option.some_inj.mp hf).symm⟩
      · cases hf
  · rintro ⟨i, h1, h2, h3, h4, rfl⟩
    refine List.mem_filterMap.mpr ⟨i, ?_, ?_⟩
    · refine List.mem_filter.mpr ⟨List.mem_range.mpr (by omega), ?_⟩
      exact Bool.and_eq_true_iff.mpr ⟨decide_eq_true h1, decide_eq_true h2⟩
    · rw [if_neg h3, if_pos h4]

theorem mem_rawPeaks_of_mem_findPeaks {data : List ℚ}
    {samplingFreq fftSize minH : ℚ} {minD : ℕ} {pk : Peak}
    (h : pk ∈ findPeaks data samplingFreq fftSize minH minD) :
    pk ∈ rawPeaks data samplingFreq fftSize minH minD := by
  rw [findPeaks] at h
  split at h
  · cases h
  · exact (List.perm_insertionSort peakGE _).subset ((List.take_sublist 5 _).subset h)

/-! ### The claims -/

/-- C1: for every series, rectangle and maxFrequency, the marker mapping
places each detected peak's marker at exactly the (x, y) the path mapping
computes for that peak's bin index — both use the same
`yMin = 0`, `yRange = yMax - yMin` with the `0.001` floor, the same
`plotWidth`/`plotHeight`, and the same horizontal formula
`x = padding.left + (frequency / maxFreq) * plotWidth` — and the marker
point is an element of the emitted path sequence. -/
theorem c1 (data : List ℚ) (samplingFreq fftSize minH maxFreq : ℚ)
    (minD : ℕ) (r : PlotRect) (pk : Peak)
    (hpk : pk ∈ findPeaks data samplingFreq fftSize minH minD)
    (hf : pk.frequency ≤ maxFreq) :
    markerPoint data maxFreq r pk
      = pathPoint data samplingFreq fftSize maxFreq r pk.binIndex
    ∧ markerPoint data maxFreq r pk
        ∈ generatePathPoints data samplingFreq fftSize maxFreq r := by
  have hraw := mem_rawPeaks_of_mem_findPeaks hpk
  rw [mem_rawPeaks_iff] at hraw
  obtain ⟨i, h1, h2, h3, h4, rfl⟩ := hraw
  refine ⟨rfl, ?_⟩
  exact pathPoint_mem_generatePathPoints data samplingFreq fftSize maxFreq r i
    (by omega) hf

/-- C1 witness: the concrete series `[0, 1, 0]` with `minDistance = 1` has
its sole peak at bin 1; at the source's marker rectangle the marker
coordinates coincide with the path point of bin 1 and lie on the path. -/
theorem c1_witness :
    markerPoint [0, 1, 0] 10 rectA ⟨1, 1, 1⟩
      = pathPoint [0, 1, 0] 1 1 10 rectA 1
    ∧ markerPoint [0, 1, 0] 10 rectA ⟨1, 1, 1⟩
        ∈ generatePathPoints [0, 1, 0] 1 1 10 rectA :=
  c1 [0, 1, 0] 1 1 (1 / 10) 10 1 rectA ⟨1, 1, 1⟩ (by decide) (by decide)

/-- C2: an eligible index `i` with `series[i] ≥ minHeight` is collected as
a peak iff every other index of the window
`[i - minDistance, i + minDistance]` holds a strictly smaller value (a
`≥` neighbour, equality included, disqualifies); consequently on a plateau
of equal values spanning more than `2 * minDistance + 1` samples no
plateau index is ever reported. -/
theorem c2 (data : List ℚ) (samplingFreq fftSize minH : ℚ) (minD i a b : ℕ)
    (h1 : minD ≤ i) (h2 : i + minD < data.length)
    (h3 : minH ≤ data.getD i 0) :
    ((∃ pk ∈ rawPeaks data samplingFreq fftSize minH minD, pk.binIndex = i) ↔
      ∀ j ∈ Finset.Icc (i - minD) (i + minD), j ≠ i →
        data.getD j 0 < data.getD i 0)
    ∧ (1 ≤ minD → a + 2 * minD + 1 < b → b ≤ data.length →
        (∀ j ∈ Finset.Ico a b, data.getD j 0 = data.getD a 0) →
        a ≤ i → i < b →
        ∀ pk ∈ findPeaks data samplingFreq fftSize minH minD,
          pk.binIndex ≠ i) := by
  constructor
  · constructor
    · rintro ⟨pk, hpk, hbin⟩
      rw [mem_rawPeaks_iff] at hpk
      obtain ⟨j, _, _, _, hmax, rfl⟩ := hpk
      have : j = i := hbin
      subst this
      exact (isLocalMax_iff data minD j h1).mp hmax
    · intro hwin
      refine ⟨⟨i, binToFrequency samplingFreq fftSize i, data.getD i 0⟩, ?_, rfl⟩
      rw [mem_rawPeaks_iff]
      exact ⟨i, h1, h2, not_lt.mpr h3,
        (isLocalMax_iff data minD i h1).mpr hwin, rfl⟩
  · intro hmd hab hbl hplat hai hib pk hpk hbin
    have hraw := mem_rawPeaks_of_mem_findPeaks hpk
    rw [mem_rawPeaks_iff] at hraw
    obtain ⟨j, hj1, hj2, _, hmax, rfl⟩ := hraw
    have hji : j = i := hbin
    subst hji
    have hw := (isLocalMax_iff data minD j hj1).mp hmax
    have hja : data.getD j 0 = data.getD a 0 :=
      hplat j (Finset.mem_Ico.mpr ⟨hai, hib⟩)
    by_cases hja2 : j = a
    · have hjmem : j + 1 ∈ Finset.Icc (j - minD) (j + minD) :=
        Finset.mem_Icc.mpr ⟨by omega, by omega⟩
      have hlt := hw (j + 1) hjmem (by omega)
      have : data.getD (j + 1) 0 = data.getD a 0 :=
        hplat (j + 1) (Finset.mem_Ico.mpr ⟨by omega, by omega⟩)
      rw [this, hja] at hlt
      exact lt_irrefl _ hlt
    · have hjmem : j - 1 ∈ Finset.Icc (j - minD) (j + minD) :=
        Finset.mem_Icc.mpr ⟨by omega, by omega⟩
      have hlt := hw (j - 1) hjmem (by omega)
      have : data.getD (j - 1) 0 = data.getD a 0 :=
        hplat (j - 1) (Finset.mem_Ico.mpr ⟨by omega, by omega⟩)
      rw [this, hja] at hlt
      exact lt_irrefl _ hlt

/-- C2 witness: in `[0, 0, 1, 0, 0]` with `minDistance = 1`, bin 2 is
collected as a peak, obtained from the window characterisation. -/
theorem c2_witness :
    ∃ pk ∈ rawPeaks [0, 0, 1, 0, 0] 1 1 (1 / 10) 1, pk.binIndex = 2 :=
  (c2 [0, 0, 1, 0, 0] 1 1 (1 / 10) 1 2 0 5 (by decide) (by decide)
    (by decide)).1.mpr (by decide)

/-- C3: only indices of `[minDistance, length - minDistance)` are ever
reported, and a series of length at most `2 * minDistance` yields no
peaks at all. -/
theorem c3 (data : List ℚ) (samplingFreq fftSize minH : ℚ) (minD : ℕ)
    (pk : Peak) (_h : 1 ≤ minD) :
    (pk ∈ findPeaks data samplingFreq fftSize minH minD →
      minD ≤ pk.binIndex ∧ pk.binIndex + minD < data.length)
    ∧ (data.length ≤ 2 * minD →
        findPeaks data samplingFreq fftSize minH minD = []) := by
  constructor
  · intro hpk
    have hraw := mem_rawPeaks_of_mem_findPeaks hpk
    rw [mem_rawPeaks_iff] at hraw
    obtain ⟨i, h1, h2, _, _, rfl⟩ := hraw
    exact ⟨h1, h2⟩
  · intro hlen
    have hempty : rawPeaks data samplingFreq fftSize minH minD = [] := by
      apply List.eq_nil_iff_forall_not_mem.mpr
      intro pk2 hpk2
      rw [mem_rawPeaks_iff] at hpk2
      obtain ⟨i, h1, h2, _, _, _⟩ := hpk2
      omega
    rw [findPeaks, hempty]
    split
    · rfl
    · rfl

/-- C3 witness: a two-element series with `minDistance = 1` has no
eligible index, so the peak list is empty. -/
theorem c3_witness : findPeaks [(0 : ℚ), 0] 1 1 (1 / 10) 1 = [] :=
  (c3 [(0 : ℚ), 0] 1 1 (1 / 10) 1 ⟨0, 0, 0⟩ (le_refl 1)).2 (by decide)

/-- C4 counterexample: at `rectBad` the plot width is `100 - 60 - 60 = -20 ≤ 0`,
yet neither the path mapping nor the marker mapping returns an empty
sequence — the source has no guard on the plot dimensions. -/
theorem c4_counterexample :
    plotW rectBad ≤ 0
    ∧ generatePathPoints [(1 : ℚ)] 1 1 1 rectBad ≠ []
    ∧ mapPeaksToMarkers [(1 : ℚ)] [⟨0, 0, 1⟩] 1 rectBad ≠ [] := by
  decide

/-- C4 as amended: for a rectangle with non-positive plot width or height
the mappings do NOT return an empty sequence (there is no dimension
guard): a non-empty series with `0 ≤ maxFrequency` yields a non-empty
path, a retained peak yields a non-empty marker list; and no division by
zero arises, the `y` divisor `max(yRange, 0.001)` being at least `0.001`
(the only other divisor is `maxFreq`). -/
theorem c4 (samplingFreq fftSize maxFreq : ℚ) (r : PlotRect) (m : ℚ)
    (rest : List ℚ) (pk : Peak) (pks : List Peak)
    (_h : plotW r ≤ 0 ∨ plotH r ≤ 0) (hmf : 0 ≤ maxFreq)
    (hpk : pk.frequency ≤ maxFreq) :
    generatePathPoints (m :: rest) samplingFreq fftSize maxFreq r ≠ []
    ∧ mapPeaksToMarkers (m :: rest) (pk :: pks) maxFreq r ≠ []
    ∧ (1 / 1000 : ℚ) ≤ max (seriesYMax (m :: rest) - 0) (1 / 1000) := by
  refine ⟨?_, ?_, le_max_right _ _⟩
  · have h0 : binToFrequency samplingFreq fftSize 0 ≤ maxFreq := by
      rw [binToFrequency]
      push_cast
      rw [zero_mul, zero_div]
      exact hmf
    exact List.ne_nil_of_mem
      (pathPoint_mem_generatePathPoints (m :: rest) samplingFreq fftSize
        maxFreq r 0 (by simp) h0)
  · rw [mapPeaksToMarkers, List.filter_cons, if_pos (decide_eq_true hpk)]
    simp

/-- C4 witness: the series `[1]` at `rectBad` (plot width `-20`). -/
theorem c4_witness :
    generatePathPoints [(1 : ℚ)] 1 1 1 rectBad ≠ []
    ∧ mapPeaksToMarkers [(1 : ℚ)] [⟨0, 0, 1⟩] 1 rectBad ≠ []
    ∧ (1 / 1000 : ℚ) ≤ max (seriesYMax [(1 : ℚ)] - 0) (1 / 1000) :=
  c4 1 1 1 rectBad 1 [] ⟨0, 0, 1⟩ [] (Or.inl (by decide)) (by decide)
    (by decide)

/-- C5 counterexample: the constant series `[5, 5]` is mapped with
`yRange = yMax - 0 = 5`, so every point lands at
`y = padding.top = 20` — the TOP of the plot — not at the claimed bottom
`padding.top + plotHeight = 250`. -/
theorem c5_counterexample :
    generatePathPoints [(5 : ℚ), 5] 1 1 10 rectA = [(60, 20), (170, 20)]
    ∧ (20 : ℚ) ≠ rectA.padding.top + plotH rectA := by
  decide

/-- C5 as amended: for every non-empty constant series the path
coordinates are well defined — the `y` divisor `max(yRange, 0.001)` is at
least `0.001`, so there is no division blow-up — but the flat line maps
to the bottom `padding.top + plotHeight` only when the constant is `0`
(then `yRange = 0` and the `0.001` floor takes over); a constant
`c ≥ 0.001` gives `yRange = c - 0 = c` and every point lands at the top
`padding.top`. -/
theorem c5 (data : List ℚ) (samplingFreq fftSize maxFreq c : ℚ)
    (r : PlotRect) (p : ℚ × ℚ) (hne : data ≠ [])
    (hconst : ∀ m ∈ data, m = c)
    (hp : p ∈ generatePathPoints data samplingFreq fftSize maxFreq r) :
    (1 / 1000 : ℚ) ≤ max (seriesYMax data - 0) (1 / 1000)
    ∧ (c = 0 → p.2 = r.padding.top + plotH r)
    ∧ ((1 / 1000 : ℚ) ≤ c → p.2 = r.padding.top) := by
  rw [generatePathPoints_eq] at hp
  obtain ⟨i, hi, rfl⟩ := List.mem_map.mp hp
  have hilen : i < data.length :=
    List.mem_range.mp (List.mem_filter.mp hi).1
  have hdc : data.getD i 0 = c := hconst _ (getD_mem data i hilen)
  have hymax : seriesYMax data = c := seriesYMax_const data c hne hconst
  refine ⟨le_max_right _ _, ?_, ?_⟩
  · intro hc
    show r.padding.top + plotH r - _ = _
    rw [hdc, hymax, hc, sub_zero, zero_div, zero_mul, sub_zero]
  · intro hc
    have hc0 : c ≠ 0 := by
      intro h0
      rw [h0] at hc
      norm_num at hc
    show r.padding.top + plotH r - _ = _
    rw [hdc, hymax, sub_zero, max_eq_left hc, div_self hc0,
      one_mul, add_sub_cancel_right]

/-- C5 witness: the all-zero series `[0, 0]` maps every point to the
bottom of the plot, here `y = 250` at `rectA`. -/
theorem c5_witness :
    ((1 / 1000 : ℚ) ≤ max (seriesYMax [(0 : ℚ), 0] - 0) (1 / 1000))
    ∧ ((0 : ℚ) = 0 → ((60 : ℚ), (250 : ℚ)).2 = rectA.padding.top + plotH rectA)
    ∧ ((1 / 1000 : ℚ) ≤ 0 → ((60 : ℚ), (250 : ℚ)).2 = rectA.padding.top) :=
  c5 [(0 : ℚ), 0] 1 1 10 0 rectA ((60 : ℚ), (250 : ℚ)) (by decide)
    (by decide) (by decide)

/-- C6: the path mapping emits exactly the bins whose frequency is at most
`maxFreq`, each mapped by the shared point formula; bins with
`frequency(i) > maxFreq` are dropped from the sequence, not clamped. -/
theorem c6 (data : List ℚ) (samplingFreq fftSize maxFreq : ℚ) (r : PlotRect) :
    generatePathPoints data samplingFreq fftSize maxFreq r
      = ((List.range data.length).filter
            fun i => decide (binToFrequency samplingFreq fftSize i ≤ maxFreq)).map
          (pathPoint data samplingFreq fftSize maxFreq r) :=
  generatePathPoints_eq data samplingFreq fftSize maxFreq r

/-- C7: the reported peaks are the first 5 entries of the stable
magnitude-descending ordering of all qualifying peaks: the list is
pairwise non-increasing in magnitude, has length at most 5, equals the
truncated sort, and the sort is a permutation of the qualifying peaks. -/
theorem c7 (data : List ℚ) (samplingFreq fftSize minH : ℚ) (minD : ℕ) :
    List.Pairwise peakGE (findPeaks data samplingFreq fftSize minH minD)
    ∧ (findPeaks data samplingFreq fftSize minH minD).length ≤ 5
    ∧ findPeaks data samplingFreq fftSize minH minD
        = (List.insertionSort peakGE
            (rawPeaks data samplingFreq fftSize minH minD)).take 5
    ∧ List.Perm
        (List.insertionSort peakGE (rawPeaks data samplingFreq fftSize minH minD))
        (rawPeaks data samplingFreq fftSize minH minD) := by
  refine ⟨?_, ?_, ?_, List.perm_insertionSort peakGE _⟩
  · rw [findPeaks]
    split
    · exact List.Pairwise.nil
    · exact List.Pairwise.take (List.sorted_insertionSort peakGE _)
  · rw [findPeaks]
    split
    · simp
    · rw [List.length_take]
      exact min_le_left 5 _
  · rw [findPeaks]
    split
    · next hemp =>
        have : data = [] := List.isEmpty_iff.mp hemp
        subst this
        rfl
    · rfl

/-- C8: the empty series yields the defined degenerate statistics
`{min 0, max 0, avg 0, rms 0, peaks []}` — `rms = √(rmsSq) = √0 = 0` —
and the path mapping yields the empty point sequence. -/
theorem c8 (samplingFreq fftSize maxFreq : ℚ) (r : PlotRect) :
    calculateStats samplingFreq fftSize [] = ⟨0, 0, 0, 0, []⟩
    ∧ Real.sqrt ((calculateStats samplingFreq fftSize []).rmsSq : ℝ) = 0
    ∧ generatePathPoints [] samplingFreq fftSize maxFreq r = [] := by
  refine ⟨rfl, ?_, rfl⟩
  have h : (calculateStats samplingFreq fftSize []).rmsSq = 0 := rfl
  rw [h, Rat.cast_zero, Real.sqrt_zero]

/-- C9: two distinct reported peaks are always more than `minDistance`
bins apart — a reported peak can never lie inside another reported peak's
local-maximum window. -/
theorem c9 (data : List ℚ) (samplingFreq fftSize minH : ℚ) (minD : ℕ)
    (p q : Peak) (_h : 1 ≤ minD)
    (hp : p ∈ findPeaks data samplingFreq fftSize minH minD)
    (hq : q ∈ findPeaks data samplingFreq fftSize minH minD)
    (hlt : p.binIndex < q.binIndex) :
    minD < q.binIndex - p.binIndex := by
  have hp2 := mem_rawPeaks_of_mem_findPeaks hp
  have hq2 := mem_rawPeaks_of_mem_findPeaks hq
  rw [mem_rawPeaks_iff] at hp2 hq2
  obtain ⟨i, hi1, hi2, _, hmi, rfl⟩ := hp2
  obtain ⟨k, hk1, hk2, _, hmk, rfl⟩ := hq2
  have hik : i < k := hlt
  show minD < k - i
  by_contra hc
  push_neg at hc
  have h1 := (isLocalMax_iff data minD i hi1).mp hmi k
    (Finset.mem_Icc.mpr ⟨by omega, by omega⟩) (by omega)
  have h2 := (isLocalMax_iff data minD k hk1).mp hmk i
    (Finset.mem_Icc.mpr ⟨by omega, by omega⟩) (by omega)
  exact lt_asymm h1 h2

/-- C9 witness: `[0, 1, 0, 1, 0]` with `minDistance = 1` reports peaks at
bins 1 and 3, which are `2 > 1` bins apart. -/
theorem c9_witness :
    (1 : ℕ) < (Peak.mk 3 3 1).binIndex - (Peak.mk 1 1 1).binIndex :=
  c9 [0, 1, 0, 1, 0] 1 1 (1 / 10) 1 ⟨1, 1, 1⟩ ⟨3, 3, 1⟩ (le_refl 1)
    (by decide) (by decide) (by decide)

/-- C10: for a non-negative series whose bin frequencies all stay within
`maxFrequency`, positive plot dimensions and positive `maxFrequency`,
`samplingFrequency`, `fftSize`, every emitted path point stays inside the
plot rectangle — even when `yRange` falls under the `0.001` floor. -/
theorem c10 (data : List ℚ) (samplingFreq fftSize maxFreq : ℚ)
    (r : PlotRect) (p : ℚ × ℚ)
    (hdata : ∀ m ∈ data, 0 ≤ m)
    (_hfreq : ∀ i < data.length, binToFrequency samplingFreq fftSize i ≤ maxFreq)
    (hmf : 0 < maxFreq) (hsf : 0 < samplingFreq) (hfs : 0 < fftSize)
    (hw : 0 < plotW r) (hh : 0 < plotH r)
    (hp : p ∈ generatePathPoints data samplingFreq fftSize maxFreq r) :
    r.padding.left ≤ p.1 ∧ p.1 ≤ r.padding.left + plotW r
    ∧ r.padding.top ≤ p.2 ∧ p.2 ≤ r.padding.top + plotH r := by
  rw [generatePathPoints_eq] at hp
  obtain ⟨i, hi, rfl⟩ := List.mem_map.mp hp
  have hilen : i < data.length := List.mem_range.mp (List.mem_filter.mp hi).1
  have hle : binToFrequency samplingFreq fftSize i ≤ maxFreq :=
    of_decide_eq_true (List.mem_filter.mp hi).2
  have hf0 : 0 ≤ binToFrequency samplingFreq fftSize i := by
    rw [binToFrequency]
    exact div_nonneg (mul_nonneg (Nat.cast_nonneg i) hsf.le) hfs.le
  have hx0 : 0 ≤ binToFrequency samplingFreq fftSize i / maxFreq * plotW r :=
    mul_nonneg (div_nonneg hf0 hmf.le) hw.le
  have hx1 : binToFrequency samplingFreq fftSize i / maxFreq * plotW r
      ≤ plotW r := by
    have h1 := (div_le_one hmf).mpr hle
    calc binToFrequency samplingFreq fftSize i / maxFreq * plotW r
        ≤ 1 * plotW r := mul_le_mul_of_nonneg_right h1 hw.le
      _ = plotW r := one_mul _
  have hm0 : 0 ≤ data.getD i 0 := hdata _ (getD_mem data i hilen)
  have hD : (0 : ℚ) < max (seriesYMax data - 0) (1 / 1000) :=
    lt_of_lt_of_le (by norm_num) (le_max_right _ _)
  have hmD : data.getD i 0 - 0 ≤ max (seriesYMax data - 0) (1 / 1000) := by
    rw [sub_zero]
    refine le_trans (le_seriesYMax data _ (getD_mem data i hilen)) ?_
    refine le_trans (le_of_eq (sub_zero (seriesYMax data)).symm) ?_
    exact le_max_left _ _
  have hy0 : 0 ≤ (data.getD i 0 - 0) / max (seriesYMax data - 0) (1 / 1000)
      * plotH r := by
    refine mul_nonneg (div_nonneg ?_ hD.le) hh.le
    rw [sub_zero]
    exact hm0
  have hy1 : (data.getD i 0 - 0) / max (seriesYMax data - 0) (1 / 1000)
      * plotH r ≤ plotH r := by
    have h1 : (data.getD i 0 - 0) / max (seriesYMax data - 0) (1 / 1000) ≤ 1 :=
      (div_le_one hD).mpr hmD
    calc (data.getD i 0 - 0) / max (seriesYMax data - 0) (1 / 1000) * plotH r
        ≤ 1 * plotH r := mul_le_mul_of_nonneg_right h1 hh.le
      _ = plotH r := one_mul _
  refine ⟨?_, ?_, ?_, ?_⟩
  · show r.padding.left
      ≤ r.padding.left + binToFrequency samplingFreq fftSize i / maxFreq * plotW r
    linarith
  · show r.padding.left + binToFrequency samplingFreq fftSize i / maxFreq * plotW r
      ≤ r.padding.left + plotW r
    linarith
  · show r.padding.top
      ≤ r.padding.top + plotH r
        - (data.getD i 0 - 0) / max (seriesYMax data - 0) (1 / 1000) * plotH r
    linarith
  · show r.padding.top + plotH r
        - (data.getD i 0 - 0) / max (seriesYMax data - 0) (1 / 1000) * plotH r
      ≤ r.padding.top + plotH r
    linarith

/-- C10 witness: the point of bin 1 of `[0, 1]` at `rectA` is `(170, 20)`,
inside the plot rectangle `[60, 1160] × [20, 250]`. -/
theorem c10_witness :
    rectA.padding.left ≤ ((170 : ℚ), (20 : ℚ)).1
    ∧ ((170 : ℚ), (20 : ℚ)).1 ≤ rectA.padding.left + plotW rectA
    ∧ rectA.padding.top ≤ ((170 : ℚ), (20 : ℚ)).2
    ∧ ((170 : ℚ), (20 : ℚ)).2 ≤ rectA.padding.top + plotH rectA :=
  c10 [0, 1] 1 1 10 rectA ((170 : ℚ), (20 : ℚ)) (by decide) (by decide)
    (by decide) (by decide) (by decide) (by decide) (by decide) (by decide)

end Vibration
